import Mathlib

/-!
Shallow embedding of the protocol-client core of the svelte-mcp-client
repository: the `McpClient` class (src/lib/core/client.ts), the
`SseTransport` class (src/lib/transports/sse.ts) and the shared data
types (src/lib/core/types.ts).

The JavaScript code is single-threaded and event-driven, so every method
and event handler is embedded as a pure function from the component's
state to a new state paired with a list of observable effects (promise
settlements, emitter notifications, timer operations, transport calls),
in the order the code performs them.
-/

namespace Mcp

/-- JSON values (the `JsonValue` type of types.ts); numbers idealised as
integers, which suffices for every value the claims mention. -/
inductive Json where
  | null : Json
  | bool (b : Bool) : Json
  | num (n : Int) : Json
  | str (s : String) : Json
  | arr (elems : List Json) : Json
  | obj (fields : List (String × Json)) : Json

/-- The `error` payload shape `{message, code?, data?}` of a wire message. -/
structure McpError where
  message : String
  code : Option Int := none
  data : Option Json := none

/-- The wire message shape `McpMessage` of types.ts: all fields optional. -/
structure McpMessage where
  id : Option String := none
  method : Option String := none
  params : Option Json := none
  result : Option Json := none
  error : Option McpError := none

/-- Connection status (`McpStatus` of types.ts). -/
inductive McpStatus where
  | disconnected
  | connecting
  | connected
  | reconnecting
  | error
deriving DecidableEq, Repr

/-- Log severity levels (`McpLogLevel` of types.ts). -/
inductive LogLevel where
  | info
  | warn
  | error
  | debug
deriving DecidableEq, Repr

/-- Rendering of a status value into the text used by log messages. -/
def statusText : McpStatus → String
  | .disconnected => "disconnected"
  | .connecting => "connecting"
  | .connected => "connected"
  | .reconnecting => "reconnecting"
  | .error => "error"

/-! ## Association-list model of the JavaScript `Map` used for `pending` -/

/-- `Map.get`: first binding of the key, if any. -/
def lookupEntry {α : Type} (m : List (String × α)) (k : String) : Option α :=
  match m with
  | [] => none
  | (k0, v0) :: rest => if k0 = k then some v0 else lookupEntry rest k

/-- `Map.has`. -/
def containsEntry {α : Type} (m : List (String × α)) (k : String) : Bool :=
  (lookupEntry m k).isSome

/-- `Map.set`: replace in place when the key exists, else append
(JavaScript `Map` keeps insertion order). -/
def setEntry {α : Type} (m : List (String × α)) (k : String) (v : α) : List (String × α) :=
  match m with
  | [] => [(k, v)]
  | (k0, v0) :: rest => if k0 = k then (k, v) :: rest else (k0, v0) :: setEntry rest k v

/-- `Map.delete`: remove every binding of the key. -/
def eraseEntry {α : Type} (m : List (String × α)) (k : String) : List (String × α) :=
  match m with
  | [] => []
  | (k0, v0) :: rest => if k0 = k then eraseEntry rest k else (k0, v0) :: eraseEntry rest k

/-! ## Correlation ids (`McpClient.generateId`)

`generateId` returns `Date.now().toString(36) + "-" + Math.random().toString(36).slice(2, 10)`.
The embedding takes the current time and the random suffix as inputs. -/

/-- One base-36 digit, as produced by `Number.prototype.toString(36)`. -/
def base36Digit (n : Nat) : Char :=
  if n < 10 then Char.ofNat (48 + n) else Char.ofNat (97 + (n - 10))

/-- Big-endian base-36 digit accumulation.  The first argument is fuel
bounding the recursion depth; `fuel ≥ n` always suffices because the
value shrinks by a factor of 36 every round. -/
def toBase36Go : Nat → Nat → List Char → List Char
  | 0, _, acc => acc
  | fuel + 1, n, acc =>
      if n = 0 then acc
      else toBase36Go fuel (n / 36) (base36Digit (n % 36) :: acc)

/-- `Number.prototype.toString(36)` on a natural number. -/
def toBase36 (n : Nat) : String :=
  if n = 0 then "0" else String.mk (toBase36Go n n [])

/-- `McpClient.generateId`, with the millisecond clock value `nowMs` and the
random suffix `rand` (the eight base-36 characters drawn from `Math.random()`)
supplied by the environment. -/
def generateId (nowMs : Nat) (rand : String) : String :=
  toBase36 nowMs ++ "-" ++ rand

/-! ## Client state and effects -/

/-- A `PendingRequest` entry of the `pending` map.  The `resolve`/`reject`
closures are represented by id-tagged settlement effects; the entry records
the method name captured by the timeout closure and the timer handle. -/
structure PendingRequest where
  method : String
  timeoutId : Nat
deriving DecidableEq, Repr

/-- Client configuration (`McpClientOptions` with defaults applied). -/
structure ClientOptions where
  requestTimeoutMs : Nat := 15000
deriving DecidableEq, Repr

/-- Observable effects of a client method or handler, in program order. -/
inductive CEffect where
  | resolve (id : String) (value : Json)
  | reject (id : String) (errMsg : String)
  | emitMessage (m : McpMessage)
  | emitStatus (st : McpStatus)
  | emitError (errMsg : String)
  | log (level : LogLevel) (msg : String)
  | clearTimeout (tid : Nat)
  | setTimeout (tid : Nat) (delayMs : Nat)
  | transportSend (m : McpMessage)
  | transportConnect
  | transportDisconnect

/-- State of an `McpClient`: the pending map, the mirrored status value, and
whether the constructor's transport subscriptions are still installed
(`unsubs` nonempty; `destroy` empties it). -/
structure ClientState where
  pending : List (String × PendingRequest)
  status : McpStatus
  subscribed : Bool

/-- `McpClient.setStatus`: store the status, emit it, log it. -/
def setStatus (s : ClientState) (st : McpStatus) : ClientState × List CEffect :=
  ({ s with status := st },
   [.emitStatus st, .log .info ("status " ++ statusText st)])

/-- `McpClient.handleMessage`.  The message is first re-emitted; then, when
`message.id` is truthy (a nonempty string) and has a pending entry, the timer
is cleared, the entry removed, and the promise settled: rejected with the
error's message when a top-level `error` field is present, else resolved with
`message.result ?? null`.  Otherwise the message is only logged. -/
def handleMessage (s : ClientState) (m : McpMessage) : ClientState × List CEffect :=
  match m.id with
  | some id =>
    if id ≠ "" then
      match lookupEntry s.pending id with
      | some pr =>
        let s1 := { s with pending := eraseEntry s.pending id }
        match m.error with
        | some e =>
            (s1, [.emitMessage m, .clearTimeout pr.timeoutId, .reject id e.message])
        | none =>
            (s1, [.emitMessage m, .clearTimeout pr.timeoutId,
                  .resolve id (m.result.getD .null)])
      | none => (s, [.emitMessage m, .log .info "message"])
    else (s, [.emitMessage m, .log .info "message"])
  | none => (s, [.emitMessage m, .log .info "message"])

/-- `McpClient.request`: generate an id, register a pending entry whose
timeout fires after `requestTimeoutMs`, log, and send the request message.
`tid` is the timer handle allocated by `setTimeout`. -/
def requestStep (opts : ClientOptions) (s : ClientState) (nowMs : Nat) (rand : String)
    (tid : Nat) (method : String) (params : Option Json) : ClientState × List CEffect :=
  let id := generateId nowMs rand
  let msg : McpMessage := { id := some id, method := some method, params := params }
  ({ s with pending := setEntry s.pending id ⟨method, tid⟩ },
   [.setTimeout tid opts.requestTimeoutMs, .log .debug ("send " ++ method),
    .transportSend msg])

/-- The timeout closure registered by `request`: delete the pending entry and
reject with a timeout error naming the captured method.  The timer
infrastructure only runs the closure while the timer has not been cleared;
since every path that removes an entry clears its timer, the closure runs
only when the entry is still present, which the guard models. -/
def timeoutFire (s : ClientState) (id : String) (method : String) :
    ClientState × List CEffect :=
  if containsEntry s.pending id then
    ({ s with pending := eraseEntry s.pending id },
     [.reject id ("Request timed out: " ++ method)])
  else (s, [])

/-- `McpClient.rejectAllPending`: for each pending entry clear its timer and
reject it, leaving the map empty. -/
def rejectAllPending (s : ClientState) (errMsg : String) : ClientState × List CEffect :=
  ({ s with pending := [] },
   (s.pending.map (fun p => [CEffect.clearTimeout p.2.timeoutId,
                             CEffect.reject p.1 errMsg])).flatten)

/-- `McpClient.connect`: set status to `connecting`, then call
`transport.connect()`. -/
def clientConnect (s : ClientState) : ClientState × List CEffect :=
  let p1 := setStatus s .connecting
  (p1.1, p1.2 ++ [.transportConnect])

/-- `McpClient.disconnect`: await `transport.disconnect()`, set status to
`disconnected`, reject all pending requests with a `Disconnected` error. -/
def clientDisconnect (s : ClientState) : ClientState × List CEffect :=
  let p1 := setStatus s .disconnected
  let p2 := rejectAllPending p1.1 "Disconnected"
  (p2.1, [CEffect.transportDisconnect] ++ p1.2 ++ p2.2)

/-- `McpClient.destroy`: run every stored unsubscribe function, clear the
list, and reject all pending requests.  No status change, no transport call. -/
def destroy (s : ClientState) : ClientState × List CEffect :=
  rejectAllPending { s with subscribed := false } "Client destroyed"

/-! ## Client event step

One step of the single-threaded event loop from the client's point of view:
either a public API call or a callback the constructor subscribed to the
transport.  Transport callbacks reach the client only while the constructor
subscriptions are installed (`destroy` removes them). -/

/-- Events driving an `McpClient`. -/
inductive CEvent where
  | apiConnect
  | apiDisconnect
  | apiDestroy
  | apiRequest (nowMs : Nat) (rand : String) (tid : Nat) (method : String)
      (params : Option Json)
  | transportMessage (m : McpMessage)
  | transportStatus (st : McpStatus)
  | transportError (msg : String)
  | timerExpire (id : String) (method : String)

/-- One client step. -/
def cStep (opts : ClientOptions) (s : ClientState) : CEvent → ClientState × List CEffect
  | .apiConnect => clientConnect s
  | .apiDisconnect => clientDisconnect s
  | .apiDestroy => destroy s
  | .apiRequest nowMs rand tid method params =>
      requestStep opts s nowMs rand tid method params
  | .transportMessage m => if s.subscribed then handleMessage s m else (s, [])
  | .transportStatus st => if s.subscribed then setStatus s st else (s, [])
  | .transportError msg =>
      if s.subscribed then (s, [.emitError msg, .log .error msg]) else (s, [])
  | .timerExpire id method => timeoutFire s id method

/-! ## The SSE transport (src/lib/transports/sse.ts)

Backoff arithmetic is carried out on rationals, the exact idealisation of
the JavaScript number arithmetic the code performs. -/

/-- Reconnect configuration (`BackoffConfig`). -/
structure BackoffConfig where
  baseDelayMs : ℚ
  maxDelayMs : ℚ
  jitter : ℚ
deriving DecidableEq, Repr

/-- `Math.round`: round half away from zero toward positive infinity,
i.e. `⌊x + 1/2⌋`. -/
def jsRound (q : ℚ) : ℤ := ⌊q + 1 / 2⌋

/-- `SseTransport.nextBackoffDelay`, returning the computed delay together
with the incremented retry attempt; `random` is the `Math.random()` sample. -/
def nextBackoffDelay (cfg : BackoffConfig) (attempt : Nat) (random : ℚ) : ℤ × Nat :=
  let e := min cfg.maxDelayMs (cfg.baseDelayMs * 2 ^ attempt)
  let spread := e * cfg.jitter
  (jsRound (e - spread + random * spread * 2), attempt + 1)

/-- Observable effects of a transport method or channel handler. -/
inductive TEffect where
  | emitStatus (st : McpStatus)
  | emitError (msg : String)
  | emitMessage (m : McpMessage)
  | log (level : LogLevel) (msg : String)
  | clearReconnectTimer
  | startReconnectTimer (delay : ℤ)
  | openChannel
  | closeChannel

/-- State of an `SseTransport`. -/
structure TransportState where
  status : McpStatus
  manualClose : Bool
  retryAttempt : Nat
  reconnectConfig : BackoffConfig
  /-- The delay of the currently scheduled reconnect timer, if one is set. -/
  reconnectTimer : Option ℤ
  /-- Whether an `EventSource` object is currently held (`eventSource !== null`). -/
  esOpen : Bool

/-- `SseTransport.setStatus`: store and emit (no log). -/
def tSetStatus (t : TransportState) (st : McpStatus) : TransportState × List TEffect :=
  ({ t with status := st }, [.emitStatus st])

/-- `SseTransport.clearReconnectTimer`. -/
def clearReconnectTimer (t : TransportState) : TransportState × List TEffect :=
  if t.reconnectTimer.isSome then
    ({ t with reconnectTimer := none }, [.clearReconnectTimer])
  else (t, [])

/-- `SseTransport.closeEventSource`. -/
def closeEventSource (t : TransportState) : TransportState × List TEffect :=
  if t.esOpen then ({ t with esOpen := false }, [.closeChannel]) else (t, [])

/-- `SseTransport.openEventSource` (up to installing the channel handlers):
keep `connected` if already connected, else go to `connecting`, and open a
new `EventSource`. -/
def openEventSource (t : TransportState) : TransportState × List TEffect :=
  let st := if t.status = .connected then McpStatus.connected else .connecting
  let p1 := tSetStatus t st
  ({ p1.1 with esOpen := true }, p1.2 ++ [.openChannel])

/-- `SseTransport.scheduleReconnect`: clear any pending timer, compute the
next backoff delay, log a warning naming it, and start the timer. -/
def scheduleReconnect (t : TransportState) (random : ℚ) : TransportState × List TEffect :=
  let p1 := clearReconnectTimer t
  let d := nextBackoffDelay p1.1.reconnectConfig p1.1.retryAttempt random
  ({ p1.1 with retryAttempt := d.2, reconnectTimer := some d.1 },
   p1.2 ++ [.log .warn ("reconnect in " ++ toString d.1 ++ "ms"),
            .startReconnectTimer d.1])

/-- `SseTransport.connect`: clear the manual-close flag, clear any pending
reconnect timer, open the event source. -/
def tConnect (t : TransportState) : TransportState × List TEffect :=
  let p1 := clearReconnectTimer { t with manualClose := false }
  let p2 := openEventSource p1.1
  (p2.1, p1.2 ++ p2.2)

/-- `SseTransport.disconnect`: set the manual-close flag, clear any pending
reconnect timer, close the event source, status to `disconnected`. -/
def tDisconnect (t : TransportState) : TransportState × List TEffect :=
  let p1 := clearReconnectTimer { t with manualClose := true }
  let p2 := closeEventSource p1.1
  let p3 := tSetStatus p2.1 .disconnected
  (p3.1, p1.2 ++ p2.2 ++ p3.2)

/-- `SseTransport.isConnected`. -/
def tIsConnected (t : TransportState) : Bool :=
  t.status = .connected

/-- The channel `onopen` handler: reset the retry attempt, status to
`connected`, log. -/
def esOnOpen (t : TransportState) : TransportState × List TEffect :=
  let p1 := tSetStatus { t with retryAttempt := 0 } .connected
  (p1.1, p1.2 ++ [.log .info "sse connected"])

/-- The channel `onmessage` handler: `JSON.parse` the payload inside a
`try`; on success emit the parsed message, on failure emit the parse error
(`emitError` also logs it).  The parse outcome of the platform primitive is
the handler's input. -/
def esOnMessage (t : TransportState) (parsed : Except String McpMessage) :
    TransportState × List TEffect :=
  match parsed with
  | .ok m => (t, [.emitMessage m])
  | .error e => (t, [.emitError e, .log .error e])

/-- The channel `onerror` handler: ignored entirely after a manual close;
otherwise emit a connection error, status to `reconnecting`, and schedule a
reconnect. -/
def esOnError (t : TransportState) (random : ℚ) : TransportState × List TEffect :=
  if t.manualClose then (t, [])
  else
    let p1 := tSetStatus t .reconnecting
    let p2 := scheduleReconnect p1.1 random
    (p2.1, [TEffect.emitError "SSE connection error",
            TEffect.log .error "SSE connection error"] ++ p1.2 ++ p2.2)

/-- The reconnect timer callback: do nothing after a manual close, else
close and re-open the event source. -/
def reconnectTimerFire (t : TransportState) : TransportState × List TEffect :=
  if t.manualClose then (t, [])
  else
    let p1 := closeEventSource t
    let p2 := openEventSource p1.1
    (p2.1, p1.2 ++ p2.2)

/-- Events driving an `SseTransport`. -/
inductive TEvent where
  | connect
  | disconnect
  | chOpen
  | chMessage (parsed : Except String McpMessage)
  | chError (random : ℚ)
  | timerFire

/-- One transport step. -/
def tStep (t : TransportState) : TEvent → TransportState × List TEffect
  | .connect => tConnect t
  | .disconnect => tDisconnect t
  | .chOpen => esOnOpen t
  | .chMessage parsed => esOnMessage t parsed
  | .chError random => esOnError t random
  | .timerFire => reconnectTimerFire t

/-! ## Client and transport composed (for claims about their boundary) -/

/-- A client together with its transport. -/
structure SystemState where
  client : ClientState
  transport : TransportState

/-- `McpClient.destroy` at the system level: it touches only the client. -/
def sysDestroy (sys : SystemState) : SystemState × List CEffect :=
  let p := destroy sys.client
  ({ sys with client := p.1 }, p.2)

/-- `McpClient.isConnected`: a pure proxy for `transport.isConnected()`. -/
def clientIsConnected (sys : SystemState) : Bool :=
  tIsConnected sys.transport

/-! ## Proof-support definitions (inverses used to reason about base-36 ids) -/

/-- Numeric value of a base-36 digit character; left inverse of `base36Digit`. -/
def digitVal36 (c : Char) : Nat :=
  if 97 ≤ c.toNat then c.toNat - 97 + 10 else c.toNat - 48

/-- Numeric value of a big-endian base-36 digit list. -/
def val36 (l : List Char) : Nat :=
  l.foldl (fun a c => a * 36 + digitVal36 c) 0

/-! ## Association-list lemmas -/

theorem lookupEntry_eraseEntry_self {α : Type} (m : List (String × α)) (k : String) :
    lookupEntry (eraseEntry m k) k = none := by
  induction m with
  | nil => rfl
  | cons p rest ih =>
    obtain ⟨k0, v0⟩ := p
    by_cases h : k0 = k
    · simpa [eraseEntry, h] using ih
    · simp [eraseEntry, h, lookupEntry, ih]

theorem containsEntry_eraseEntry_self {α : Type} (m : List (String × α)) (k : String) :
    containsEntry (eraseEntry m k) k = false := by
  simp [containsEntry, lookupEntry_eraseEntry_self]

theorem setEntry_of_not_contains {α : Type} (m : List (String × α)) (k : String) (v : α)
    (h : containsEntry m k = false) : setEntry m k v = m ++ [(k, v)] := by
  induction m with
  | nil => rfl
  | cons p rest ih =>
    obtain ⟨k0, v0⟩ := p
    by_cases hk : k0 = k
    · simp [containsEntry, lookupEntry, hk] at h
    · have hrest : containsEntry rest k = false := by
        simpa [containsEntry, lookupEntry, hk] using h
      simp [setEntry, hk, ih hrest]

theorem mem_rejectAllPending_effects (s : ClientState) (msg : String) (x : CEffect) :
    x ∈ (rejectAllPending s msg).2 ↔
      ∃ p ∈ s.pending,
        x = CEffect.clearTimeout p.2.timeoutId ∨ x = CEffect.reject p.1 msg := by
  simp only [rejectAllPending, List.mem_flatten, List.mem_map]
  constructor
  · rintro ⟨l, ⟨⟨a, b⟩, hab, rfl⟩, hx⟩
    refine ⟨(a, b), hab, ?_⟩
    simpa using hx
  · rintro ⟨⟨a, b⟩, hab, hx⟩
    refine ⟨[CEffect.clearTimeout b.timeoutId, CEffect.reject a msg], ⟨(a, b), hab, rfl⟩, ?_⟩
    rcases hx with rfl | rfl <;> simp

/-! ## Base-36 rendering lemmas -/

theorem digitVal36_base36Digit : ∀ k, k < 36 → digitVal36 (base36Digit k) = k := by
  decide

theorem base36Digit_ne_dash : ∀ k, k < 36 → base36Digit k ≠ '-' := by
  decide

theorem val36_shift (l : List Char) (a : Nat) :
    l.foldl (fun b c => b * 36 + digitVal36 c) a = a * 36 ^ l.length + val36 l := by
  induction l generalizing a with
  | nil => simp [val36]
  | cons c t ih =>
    have h0 : val36 (c :: t) = digitVal36 c * 36 ^ t.length + val36 t := by
      simpa [val36] using ih (0 * 36 + digitVal36 c)
    simp only [List.foldl_cons]
    rw [ih (a * 36 + digitVal36 c), h0, List.length_cons]
    ring

theorem val36_cons (c : Char) (t : List Char) :
    val36 (c :: t) = digitVal36 c * 36 ^ t.length + val36 t := by
  simpa [val36] using val36_shift t (0 * 36 + digitVal36 c)

theorem val36_toBase36Go (fuel : Nat) :
    ∀ n acc, n ≤ fuel →
      val36 (toBase36Go fuel n acc) = n * 36 ^ acc.length + val36 acc := by
  induction fuel with
  | zero =>
    intro n acc hn
    have : n = 0 := Nat.le_zero.mp hn
    simp [toBase36Go, this]
  | succ fuel ih =>
    intro n acc hn
    by_cases h0 : n = 0
    · simp [toBase36Go, h0]
    · have hdiv : n / 36 ≤ fuel := by
        have : n / 36 < n := Nat.div_lt_self (Nat.pos_of_ne_zero h0) (by norm_num)
        omega
      have hmod : digitVal36 (base36Digit (n % 36)) = n % 36 :=
        digitVal36_base36Digit (n % 36) (Nat.mod_lt n (by norm_num))
      have hdm := Nat.div_add_mod n 36
      calc val36 (toBase36Go (fuel + 1) n acc)
          = val36 (toBase36Go fuel (n / 36) (base36Digit (n % 36) :: acc)) := by
            simp [toBase36Go, h0]
        _ = n / 36 * 36 ^ (base36Digit (n % 36) :: acc).length
              + val36 (base36Digit (n % 36) :: acc) := ih _ _ hdiv
        _ = n / 36 * (36 * 36 ^ acc.length)
              + (n % 36 * 36 ^ acc.length + val36 acc) := by
            rw [val36_cons, hmod, List.length_cons]; ring_nf
        _ = (36 * (n / 36) + n % 36) * 36 ^ acc.length + val36 acc := by ring
        _ = n * 36 ^ acc.length + val36 acc := by rw [hdm]

theorem val36_toBase36 (n : Nat) : val36 (toBase36 n).data = n := by
  by_cases h : n = 0
  · subst h; decide
  · have := val36_toBase36Go n n [] le_rfl
    simp only [toBase36, h, if_neg]
    simpa [val36] using this

theorem mem_toBase36Go (fuel : Nat) :
    ∀ n acc c, c ∈ toBase36Go fuel n acc →
      c ∈ acc ∨ ∃ k, k < 36 ∧ c = base36Digit k := by
  induction fuel with
  | zero =>
    intro n acc c hc
    exact Or.inl (by simpa [toBase36Go] using hc)
  | succ fuel ih =>
    intro n acc c hc
    by_cases h0 : n = 0
    · exact Or.inl (by simpa [toBase36Go, h0] using hc)
    · simp only [toBase36Go, h0, if_neg, ite_false] at hc
      rcases ih (n / 36) _ c hc with h | h
      · rcases List.mem_cons.mp h with h | h
        · exact Or.inr ⟨n % 36, Nat.mod_lt n (by norm_num), h⟩
        · exact Or.inl h
      · exact Or.inr h

theorem toBase36_no_dash (n : Nat) (c : Char) (hc : c ∈ (toBase36 n).data) : c ≠ '-' := by
  by_cases h : n = 0
  · subst h
    simp [toBase36] at hc
    subst hc
    decide
  · simp only [toBase36, h, if_neg, ite_false] at hc
    rcases mem_toBase36Go n n [] c hc with h2 | ⟨k, hk, rfl⟩
    · simp at h2
    · exact base36Digit_ne_dash k hk

theorem append_dash_inj (xs : List Char) :
    ∀ ys u v : List Char, '-' ∉ xs → '-' ∉ ys →
      xs ++ '-' :: u = ys ++ '-' :: v → xs = ys ∧ u = v := by
  induction xs with
  | nil =>
    intro ys u v _ hys h
    cases ys with
    | nil => simpa using h
    | cons y t =>
      simp only [List.nil_append, List.cons_append, List.cons.injEq] at h
      exact absurd (h.1 ▸ List.mem_cons_self y t) hys
  | cons x t ih =>
    intro ys u v hxs hys h
    cases ys with
    | nil =>
      simp only [List.nil_append, List.cons_append, List.cons.injEq] at h
      exact absurd (h.1.symm ▸ List.mem_cons_self x t) hxs
    | cons y t2 =>
      simp only [List.cons_append, List.cons.injEq] at h
      obtain ⟨rfl, h2⟩ := h
      have hrec := ih t2 u v (fun hm => hxs (List.mem_cons_of_mem _ hm))
        (fun hm => hys (List.mem_cons_of_mem _ hm)) h2
      exact ⟨by rw [hrec.1], hrec.2⟩

theorem generateId_inj (n1 n2 : Nat) (r1 r2 : String)
    (h : generateId n1 r1 = generateId n2 r2) : n1 = n2 ∧ r1 = r2 := by
  have hd : (toBase36 n1).data ++ '-' :: r1.data
      = (toBase36 n2).data ++ '-' :: r2.data := by
    have := congrArg String.data h
    simpa [generateId, String.data_append] using this
  have hsplit := append_dash_inj (toBase36 n1).data (toBase36 n2).data r1.data r2.data
    (fun hm => toBase36_no_dash n1 '-' hm rfl) (fun hm => toBase36_no_dash n2 '-' hm rfl) hd
  refine ⟨?_, congrArg String.mk hsplit.2⟩
  have hv := congrArg val36 hsplit.1
  rwa [val36_toBase36, val36_toBase36] at hv

/-! ## Transport state lemmas -/

theorem clearReconnectTimer_state (t : TransportState) :
    (clearReconnectTimer t).1 = { t with reconnectTimer := none } := by
  rcases h : t.reconnectTimer with _ | d
  · simp only [clearReconnectTimer, h, Option.isSome_none, Bool.false_eq_true, if_false]
    cases t
    simp_all
  · simp [clearReconnectTimer, h]

theorem closeEventSource_state (t : TransportState) :
    (closeEventSource t).1 = { t with esOpen := false } := by
  cases h : t.esOpen
  · simp only [closeEventSource, h, Bool.false_eq_true, if_false]
    cases t
    simp_all
  · simp [closeEventSource, h]

theorem tDisconnect_state (t : TransportState) :
    (tDisconnect t).1
      = { t with
          manualClose := true
          reconnectTimer := none
          esOpen := false
          status := .disconnected } := by
  simp [tDisconnect, tSetStatus, clearReconnectTimer_state, closeEventSource_state]

theorem esOnError_state (t : TransportState) (h : t.manualClose = false) (r : ℚ) :
    (tStep t (.chError r)).1
      = { t with status := .reconnecting,
                 retryAttempt := t.retryAttempt + 1,
                 reconnectTimer :=
                   some (nextBackoffDelay t.reconnectConfig t.retryAttempt r).1 } := by
  simp [tStep, esOnError, h, tSetStatus, scheduleReconnect, clearReconnectTimer_state,
    nextBackoffDelay]

theorem esOnError_schedules (t : TransportState) (h : t.manualClose = false) (r : ℚ) :
    TEffect.startReconnectTimer (nextBackoffDelay t.reconnectConfig t.retryAttempt r).1
      ∈ (tStep t (.chError r)).2 := by
  rcases h2 : t.reconnectTimer with _ | d <;>
    simp [tStep, esOnError, h, tSetStatus, scheduleReconnect, clearReconnectTimer, h2]

theorem nextBackoffDelay_zero_jitter (base maxd : ℚ) (a : Nat) (r : ℚ) :
    (nextBackoffDelay ⟨base, maxd, 0⟩ a r).1 = jsRound (min maxd (base * 2 ^ a)) := by
  simp [nextBackoffDelay]

/-! ## Client message-handler lemmas -/

theorem handleMessage_of_empty_pending (s : ClientState) (m : McpMessage)
    (h : s.pending = []) :
    handleMessage s m = (s, [.emitMessage m, .log .info "message"]) := by
  rcases hmid : m.id with _ | id
  · simp [handleMessage, hmid]
  · by_cases hid : id = ""
    · subst hid; simp [handleMessage, hmid]
    · simp [handleMessage, hmid, hid, h, lookupEntry]

theorem handleMessage_no_emitStatus (s : ClientState) (m : McpMessage) (st : McpStatus) :
    CEffect.emitStatus st ∉ (handleMessage s m).2 := by
  rcases hmid : m.id with _ | id
  · simp [handleMessage, hmid]
  · by_cases hid : id = ""
    · subst hid; simp [handleMessage, hmid]
    · rcases hpend : lookupEntry s.pending id with _ | pr
      · simp [handleMessage, hmid, hid, hpend]
      · rcases herr : m.error with _ | e <;>
          simp [handleMessage, hmid, hid, hpend, herr]

/-! ## Claim theorems -/

/-- Claim C1: for every pending request with correlation id `id`, delivering an
inbound message carrying that id and a result resolves the request with exactly
that result, and delivering one carrying that id and a top-level error field
rejects it with the error field's message.  The nonemptiness hypothesis on the
id reflects the truthiness test `message.id &&` in `handleMessage`; every
generated id contains a dash and is therefore nonempty. -/
theorem spec_c1_correlated_settlement (opts : ClientOptions) (s : ClientState)
    (id : String) (pr : PendingRequest) (m : McpMessage)
    (hsub : s.subscribed = true) (hid : id ≠ "")
    (hpend : lookupEntry s.pending id = some pr) (hmid : m.id = some id) :
    (∀ r, m.result = some r → m.error = none →
      cStep opts s (.transportMessage m) =
        ({ s with pending := eraseEntry s.pending id },
         [.emitMessage m, .clearTimeout pr.timeoutId, .resolve id r])) ∧
    (∀ e, m.error = some e →
      cStep opts s (.transportMessage m) =
        ({ s with pending := eraseEntry s.pending id },
         [.emitMessage m, .clearTimeout pr.timeoutId, .reject id e.message])) := by
  constructor
  · intro r hr he
    simp [cStep, hsub, handleMessage, hmid, hid, hpend, he, hr]
  · intro e he
    simp [cStep, hsub, handleMessage, hmid, hid, hpend, he]

/-- Concrete run of `spec_c1_correlated_settlement`: one pending request, one
matching result response, one matching error response. -/
theorem spec_c1_correlated_settlement_witness :
    (cStep {} ⟨[("1-ab", ⟨"mcp.listTools", 7⟩)], .connected, true⟩
        (.transportMessage { id := some "1-ab", result := some (.str "ok") })).2
      = [.emitMessage { id := some "1-ab", result := some (.str "ok") },
         .clearTimeout 7, .resolve "1-ab" (.str "ok")] ∧
    (cStep {} ⟨[("1-ab", ⟨"mcp.listTools", 7⟩)], .connected, true⟩
        (.transportMessage { id := some "1-ab", error := some ⟨"boom", none, none⟩ })).2
      = [.emitMessage { id := some "1-ab", error := some ⟨"boom", none, none⟩ },
         .clearTimeout 7, .reject "1-ab" "boom"] := by
  constructor
  · have h := (spec_c1_correlated_settlement {}
      ⟨[("1-ab", ⟨"mcp.listTools", 7⟩)], .connected, true⟩
      "1-ab" ⟨"mcp.listTools", 7⟩ { id := some "1-ab", result := some (.str "ok") }
      rfl (by decide) (by decide) rfl).1 (.str "ok") rfl rfl
    rw [h]
  · have h := (spec_c1_correlated_settlement {}
      ⟨[("1-ab", ⟨"mcp.listTools", 7⟩)], .connected, true⟩
      "1-ab" ⟨"mcp.listTools", 7⟩
      { id := some "1-ab", error := some ⟨"boom", none, none⟩ }
      rfl (by decide) (by decide) rfl).2 ⟨"boom", none, none⟩ rfl
    rw [h]

/-- Claim C4: a response with a top-level result and no top-level error
resolves the `callTool` promise with that result unchanged — even when the
result itself embeds a tool-level error payload — and a rejection can only be
caused by a top-level error field. -/
theorem spec_c4_top_level_error_only (opts : ClientOptions) (s : ClientState)
    (id : String) (pr : PendingRequest) (m : McpMessage)
    (hsub : s.subscribed = true) (hid : id ≠ "")
    (hpend : lookupEntry s.pending id = some pr) (hmid : m.id = some id) :
    (m.error = none →
      cStep opts s (.transportMessage m) =
        ({ s with pending := eraseEntry s.pending id },
         [.emitMessage m, .clearTimeout pr.timeoutId,
          .resolve id (m.result.getD .null)])) ∧
    (∀ emsg, CEffect.reject id emsg ∈ (cStep opts s (.transportMessage m)).2 →
      ∃ e, m.error = some e ∧ emsg = e.message) := by
  constructor
  · intro he
    simp [cStep, hsub, handleMessage, hmid, hid, hpend, he]
  · intro emsg hmem
    rcases he : m.error with _ | e
    · simp [cStep, hsub, handleMessage, hmid, hid, hpend, he] at hmem
    · refine ⟨e, rfl, ?_⟩
      simp [cStep, hsub, handleMessage, hmid, hid, hpend, he] at hmem
      exact hmem

/-- Concrete run of `spec_c4_top_level_error_only`: the server answers a
`callTool` request with `{id, result: {id, error: {message: "boom"}}}`; the
call resolves with the tool-level error payload intact. -/
theorem spec_c4_top_level_error_only_witness :
    (cStep {} ⟨[("1-ab", ⟨"mcp.callTool", 9⟩)], .connected, true⟩
        (.transportMessage
          { id := some "1-ab",
            result := some (.obj [("id", .str "1-ab"),
                                  ("error", .obj [("message", .str "boom")])]) })).2
      = [.emitMessage
           { id := some "1-ab",
             result := some (.obj [("id", .str "1-ab"),
                                   ("error", .obj [("message", .str "boom")])]) },
         .clearTimeout 9,
         .resolve "1-ab" (.obj [("id", .str "1-ab"),
                                ("error", .obj [("message", .str "boom")])])] := by
  have h := (spec_c4_top_level_error_only {}
    ⟨[("1-ab", ⟨"mcp.callTool", 9⟩)], .connected, true⟩
    "1-ab" ⟨"mcp.callTool", 9⟩
    { id := some "1-ab",
      result := some (.obj [("id", .str "1-ab"),
                            ("error", .obj [("message", .str "boom")])]) }
    rfl (by decide) (by decide) rfl).1 rfl
  rw [h]
  rfl

/-- Claim C2: when the timeout timer of a pending request fires, the call is
rejected with a timeout error naming the request's method and the pending
entry is removed; a matching response delivered afterwards settles nothing and
is only re-broadcast and logged as an unmatched message. -/
theorem spec_c2_timeout_then_late_response (opts : ClientOptions) (s : ClientState)
    (id : String) (pr : PendingRequest)
    (hsub : s.subscribed = true)
    (hpend : lookupEntry s.pending id = some pr) :
    (cStep opts s (.timerExpire id pr.method)).2
      = [.reject id ("Request timed out: " ++ pr.method)] ∧
    containsEntry (cStep opts s (.timerExpire id pr.method)).1.pending id = false ∧
    (∀ m : McpMessage, m.id = some id →
      cStep opts (cStep opts s (.timerExpire id pr.method)).1 (.transportMessage m)
        = ((cStep opts s (.timerExpire id pr.method)).1,
           [.emitMessage m, .log .info "message"])) := by
  have hc : containsEntry s.pending id = true := by simp [containsEntry, hpend]
  have hstate : (cStep opts s (.timerExpire id pr.method)).1
      = { s with pending := eraseEntry s.pending id } := by
    simp [cStep, timeoutFire, hc]
  refine ⟨?_, ?_, ?_⟩
  · simp [cStep, timeoutFire, hc]
  · rw [hstate]
    exact containsEntry_eraseEntry_self s.pending id
  · intro m hm
    rw [hstate]
    by_cases hid : id = ""
    · subst hid
      simp [cStep, hsub, handleMessage, hm]
    · simp [cStep, hsub, handleMessage, hm, hid, lookupEntry_eraseEntry_self]

/-- Concrete run of `spec_c2_timeout_then_late_response`: a pending
`mcp.listTools` request times out, then its matching response arrives late. -/
theorem spec_c2_timeout_then_late_response_witness :
    (cStep {} ⟨[("1-ab", ⟨"mcp.listTools", 7⟩)], .connected, true⟩
        (.timerExpire "1-ab" "mcp.listTools")).2
      = [.reject "1-ab" "Request timed out: mcp.listTools"] ∧
    (cStep {}
        (cStep {} ⟨[("1-ab", ⟨"mcp.listTools", 7⟩)], .connected, true⟩
          (.timerExpire "1-ab" "mcp.listTools")).1
        (.transportMessage { id := some "1-ab", result := some (.str "late") })).2
      = [.emitMessage { id := some "1-ab", result := some (.str "late") },
         .log .info "message"] := by
  have h := spec_c2_timeout_then_late_response {}
    ⟨[("1-ab", ⟨"mcp.listTools", 7⟩)], .connected, true⟩
    "1-ab" ⟨"mcp.listTools", 7⟩ rfl (by decide)
  refine ⟨h.1, ?_⟩
  rw [h.2.2 { id := some "1-ab", result := some (.str "late") } rfl]

/-- Claim C3: `disconnect()` rejects every pending request with a
disconnection error, clears each pending timer, empties the pending map,
resolves nothing, and afterwards no inbound message can settle anything. -/
theorem spec_c3_disconnect_rejects_all (opts : ClientOptions) (s : ClientState) :
    (cStep opts s .apiDisconnect).1.pending = [] ∧
    (∀ p ∈ s.pending,
       CEffect.clearTimeout p.2.timeoutId ∈ (cStep opts s .apiDisconnect).2 ∧
       CEffect.reject p.1 "Disconnected" ∈ (cStep opts s .apiDisconnect).2) ∧
    (∀ id v, CEffect.resolve id v ∉ (cStep opts s .apiDisconnect).2) ∧
    (∀ m : McpMessage,
       ∀ x ∈ (cStep opts (cStep opts s .apiDisconnect).1 (.transportMessage m)).2,
       (∀ id v, x ≠ CEffect.resolve id v) ∧ (∀ id emsg, x ≠ CEffect.reject id emsg)) := by
  have heff : (cStep opts s .apiDisconnect).2
      = [CEffect.transportDisconnect, CEffect.emitStatus .disconnected,
         CEffect.log .info "status disconnected"]
        ++ (rejectAllPending { s with status := McpStatus.disconnected } "Disconnected").2 :=
    rfl
  have hstate : (cStep opts s .apiDisconnect).1
      = { s with status := McpStatus.disconnected, pending := [] } := rfl
  refine ⟨?_, ?_, ?_, ?_⟩
  · rw [hstate]
  · intro p hp
    constructor
    · rw [heff]
      exact List.mem_append_right _
        ((mem_rejectAllPending_effects _ _ _).mpr ⟨p, hp, Or.inl rfl⟩)
    · rw [heff]
      exact List.mem_append_right _
        ((mem_rejectAllPending_effects _ _ _).mpr ⟨p, hp, Or.inr rfl⟩)
  · intro id v hmem
    rw [heff] at hmem
    rcases List.mem_append.mp hmem with h | h
    · simp at h
    · rcases (mem_rejectAllPending_effects _ _ _).mp h with ⟨p, _, h2 | h2⟩ <;> simp at h2
  · intro m x hx
    rw [hstate] at hx
    cases hsub : s.subscribed with
    | false => simp [cStep, hsub] at hx
    | true =>
      rw [show cStep opts { s with status := McpStatus.disconnected, pending := [] }
            (.transportMessage m)
          = handleMessage { s with status := McpStatus.disconnected, pending := [] } m
        from by simp [cStep, hsub]] at hx
      rw [handleMessage_of_empty_pending _ _ rfl] at hx
      simp only [List.mem_cons, List.not_mem_nil, or_false] at hx
      rcases hx with rfl | rfl <;>
        (refine ⟨fun a b h => ?_, fun a b h => ?_⟩ <;> cases h)

/-- Concrete run of `spec_c3_disconnect_rejects_all`: two pending requests are
both rejected and the map is emptied. -/
theorem spec_c3_disconnect_rejects_all_witness :
    (cStep {} ⟨[("1-ab", ⟨"mcp.listTools", 7⟩), ("2-cd", ⟨"mcp.callTool", 8⟩)],
        .connected, true⟩ .apiDisconnect).1.pending = [] ∧
    CEffect.reject "1-ab" "Disconnected"
      ∈ (cStep {} ⟨[("1-ab", ⟨"mcp.listTools", 7⟩), ("2-cd", ⟨"mcp.callTool", 8⟩)],
          .connected, true⟩ .apiDisconnect).2 ∧
    CEffect.reject "2-cd" "Disconnected"
      ∈ (cStep {} ⟨[("1-ab", ⟨"mcp.listTools", 7⟩), ("2-cd", ⟨"mcp.callTool", 8⟩)],
          .connected, true⟩ .apiDisconnect).2 := by
  have h := spec_c3_disconnect_rejects_all {}
    ⟨[("1-ab", ⟨"mcp.listTools", 7⟩), ("2-cd", ⟨"mcp.callTool", 8⟩)], .connected, true⟩
  exact ⟨h.1,
    (h.2.1 ("1-ab", ⟨"mcp.listTools", 7⟩) (by simp)).2,
    (h.2.1 ("2-cd", ⟨"mcp.callTool", 8⟩) (by simp)).2⟩

/-- Claim C7: after the transport's `disconnect()` the manual-close flag is
set, the reconnect timer is cleared and the status is `disconnected`; while
manually closed, an inbound-channel error changes nothing and emits nothing,
and every event other than `connect` keeps the manual-close flag set. -/
theorem spec_c7_manual_close_suppresses_reconnect (t : TransportState) :
    ((tStep t .disconnect).1.manualClose = true ∧
     (tStep t .disconnect).1.reconnectTimer = none ∧
     (tStep t .disconnect).1.status = .disconnected) ∧
    (∀ t2 : TransportState, t2.manualClose = true →
       ∀ r : ℚ, tStep t2 (.chError r) = (t2, [])) ∧
    (∀ t2 : TransportState, t2.manualClose = true →
       ∀ ev : TEvent, ev ≠ .connect → (tStep t2 ev).1.manualClose = true) := by
  refine ⟨?_, ?_, ?_⟩
  · rw [show (tStep t .disconnect).1 = (tDisconnect t).1 from rfl, tDisconnect_state]
    exact ⟨rfl, rfl, rfl⟩
  · intro t2 h r
    simp [tStep, esOnError, h]
  · intro t2 h ev hev
    cases ev with
    | connect => exact absurd rfl hev
    | disconnect =>
      rw [show (tStep t2 .disconnect).1 = (tDisconnect t2).1 from rfl, tDisconnect_state]
    | chOpen => simpa [tStep, esOnOpen, tSetStatus] using h
    | chMessage parsed => cases parsed <;> simpa [tStep, esOnMessage] using h
    | chError r => simp [tStep, esOnError, h]
    | timerFire => simp [tStep, reconnectTimerFire, h]

/-- Concrete run of `spec_c7_manual_close_suppresses_reconnect`: disconnect a
connected transport, then feed it a channel error. -/
theorem spec_c7_manual_close_suppresses_reconnect_witness :
    (tStep ⟨.connected, false, 0, ⟨500, 15000, 1 / 4⟩, none, true⟩ .disconnect).1.status
      = .disconnected ∧
    tStep ⟨.disconnected, true, 0, ⟨500, 15000, 1 / 4⟩, none, false⟩ (.chError 0)
      = (⟨.disconnected, true, 0, ⟨500, 15000, 1 / 4⟩, none, false⟩, []) := by
  have h := spec_c7_manual_close_suppresses_reconnect
    ⟨.connected, false, 0, ⟨500, 15000, 1 / 4⟩, none, true⟩
  exact ⟨h.1.2.2,
    h.2.1 ⟨.disconnected, true, 0, ⟨500, 15000, 1 / 4⟩, none, false⟩ rfl 0⟩

/-- Claim C8: an inbound channel event whose payload fails to parse leaves the
transport state (hence the status) unchanged and produces exactly one error
notification — and no message notification; the handler returns normally
because the parse failure is caught. -/
theorem spec_c8_malformed_payload_dropped (t : TransportState) (emsg : String) :
    tStep t (.chMessage (.error emsg)) = (t, [.emitError emsg, .log .error emsg]) ∧
    (tStep t (.chMessage (.error emsg))).1.status = t.status ∧
    (∀ m : McpMessage, TEffect.emitMessage m ∉ (tStep t (.chMessage (.error emsg))).2) := by
  refine ⟨rfl, rfl, ?_⟩
  intro m hm
  simp [tStep, esOnMessage] at hm

/-- Claim C10: `destroy()` removes the client's transport subscriptions and
rejects all pending requests, never touches the transport (no disconnect
call, transport state unchanged, `isConnected()` still reports exactly the
transport's state) and leaves the client's status value unmodified. -/
theorem spec_c10_destroy_leaves_transport_alone (sys : SystemState) :
    (sysDestroy sys).1.transport = sys.transport ∧
    clientIsConnected (sysDestroy sys).1 = tIsConnected sys.transport ∧
    (sysDestroy sys).1.client.status = sys.client.status ∧
    (sysDestroy sys).1.client.subscribed = false ∧
    (sysDestroy sys).1.client.pending = [] ∧
    (∀ p ∈ sys.client.pending,
       CEffect.clearTimeout p.2.timeoutId ∈ (sysDestroy sys).2 ∧
       CEffect.reject p.1 "Client destroyed" ∈ (sysDestroy sys).2) ∧
    CEffect.transportDisconnect ∉ (sysDestroy sys).2 ∧
    (∀ st, CEffect.emitStatus st ∉ (sysDestroy sys).2) := by
  refine ⟨rfl, rfl, rfl, rfl, rfl, ?_, ?_, ?_⟩
  · intro p hp
    exact ⟨(mem_rejectAllPending_effects _ _ _).mpr ⟨p, hp, Or.inl rfl⟩,
           (mem_rejectAllPending_effects _ _ _).mpr ⟨p, hp, Or.inr rfl⟩⟩
  · intro hmem
    rcases (mem_rejectAllPending_effects _ _ _).mp hmem with ⟨p, _, h2 | h2⟩ <;> simp at h2
  · intro st hmem
    rcases (mem_rejectAllPending_effects _ _ _).mp hmem with ⟨p, _, h2 | h2⟩ <;> simp at h2

/-- Concrete run of `spec_c10_destroy_leaves_transport_alone`: destroying a
client with one pending request leaves a connected transport connected. -/
theorem spec_c10_destroy_leaves_transport_alone_witness :
    (sysDestroy ⟨⟨[("1-ab", ⟨"mcp.listTools", 7⟩)], .connected, true⟩,
        ⟨.connected, false, 0, ⟨500, 15000, 1 / 4⟩, none, true⟩⟩).1.transport
      = ⟨.connected, false, 0, ⟨500, 15000, 1 / 4⟩, none, true⟩ ∧
    CEffect.reject "1-ab" "Client destroyed"
      ∈ (sysDestroy ⟨⟨[("1-ab", ⟨"mcp.listTools", 7⟩)], .connected, true⟩,
          ⟨.connected, false, 0, ⟨500, 15000, 1 / 4⟩, none, true⟩⟩).2 := by
  have h := spec_c10_destroy_leaves_transport_alone
    ⟨⟨[("1-ab", ⟨"mcp.listTools", 7⟩)], .connected, true⟩,
     ⟨.connected, false, 0, ⟨500, 15000, 1 / 4⟩, none, true⟩⟩
  exact ⟨h.1, (h.2.2.2.2.2.1 ("1-ab", ⟨"mcp.listTools", 7⟩) (by simp)).2⟩

/-- Claim C5 counterexample: with `baseDelayMs = 100`, `maxDelayMs = 1000`,
`jitterFraction = 0.106` and `random() = 0`, the computed delay is `89`,
strictly below `exp - spread = 89.4`: the rounded delay does not lie within
`[exp - spread, exp + spread]` as claimed (the code rounds but never clamps). -/
theorem spec_c5_backoff_counterexample :
    (nextBackoffDelay ⟨100, 1000, 106 / 1000⟩ 0 0).1 = 89 ∧
    (((nextBackoffDelay ⟨100, 1000, 106 / 1000⟩ 0 0).1 : ℚ)
      < min (1000 : ℚ) (100 * 2 ^ (0 : Nat))
          - min (1000 : ℚ) (100 * 2 ^ (0 : Nat)) * (106 / 1000)) := by
  have h : (nextBackoffDelay ⟨100, 1000, 106 / 1000⟩ 0 0).1 = 89 := by
    show jsRound (min (1000 : ℚ) (100 * 2 ^ (0 : Nat))
      - min (1000 : ℚ) (100 * 2 ^ (0 : Nat)) * (106 / 1000)
      + 0 * (min (1000 : ℚ) (100 * 2 ^ (0 : Nat)) * (106 / 1000)) * 2) = 89
    norm_num [jsRound, min_def, Int.floor_eq_iff]
  refine ⟨h, ?_⟩
  rw [h]
  norm_num [min_def]

/-- Claim C5 amended: the reconnect delay is
`round(exp - spread + random() * spread * 2)` with
`exp = min(maxDelay, baseDelay * 2 ^ attempt)` and `spread = exp * jitter`;
because of the rounding it lies within the slightly widened interval
`(exp - spread - 1/2, exp + spread + 1/2]` (it can leave
`[exp - spread, exp + spread]` by up to half a millisecond, as the
counterexample shows).  With zero jitter the delay is exactly `round(exp)`.
The attempt counter increments on every scheduled reconnect, resets to 0 on
channel open, is untouched by every other event, and with
`baseDelayMs = 100, maxDelayMs = 1000, jitterFraction = 0` three consecutive
channel errors schedule reconnects at exactly 100, 200 and 400 ms. -/
theorem spec_c5_backoff_amended (cfg : BackoffConfig) (attempt : Nat) (random : ℚ)
    (hbase : 0 ≤ cfg.baseDelayMs) (hmax : 0 ≤ cfg.maxDelayMs)
    (hjit : 0 ≤ cfg.jitter) (hr0 : 0 ≤ random) (hr1 : random < 1) :
    (nextBackoffDelay cfg attempt random).2 = attempt + 1 ∧
    (min cfg.maxDelayMs (cfg.baseDelayMs * 2 ^ attempt)
        - min cfg.maxDelayMs (cfg.baseDelayMs * 2 ^ attempt) * cfg.jitter - 1 / 2
      < ((nextBackoffDelay cfg attempt random).1 : ℚ)) ∧
    (((nextBackoffDelay cfg attempt random).1 : ℚ)
      ≤ min cfg.maxDelayMs (cfg.baseDelayMs * 2 ^ attempt)
          + min cfg.maxDelayMs (cfg.baseDelayMs * 2 ^ attempt) * cfg.jitter + 1 / 2) ∧
    (cfg.jitter = 0 →
      (nextBackoffDelay cfg attempt random).1
        = jsRound (min cfg.maxDelayMs (cfg.baseDelayMs * 2 ^ attempt))) ∧
    (∀ t : TransportState, (tStep t .chOpen).1.retryAttempt = 0) ∧
    (∀ t : TransportState, t.manualClose = false → ∀ r : ℚ,
       (tStep t (.chError r)).1.retryAttempt = t.retryAttempt + 1) ∧
    (∀ t : TransportState, ∀ ev : TEvent,
       (∀ r : ℚ, ev ≠ .chError r) → ev ≠ .chOpen →
       (tStep t ev).1.retryAttempt = t.retryAttempt) ∧
    (∀ t : TransportState, t.manualClose = false → t.retryAttempt = 0 →
       t.reconnectConfig = ⟨100, 1000, 0⟩ →
       ∀ r1 r2 r3 : ℚ,
         TEffect.startReconnectTimer 100 ∈ (tStep t (.chError r1)).2 ∧
         TEffect.startReconnectTimer 200
           ∈ (tStep (tStep t (.chError r1)).1 (.chError r2)).2 ∧
         TEffect.startReconnectTimer 400
           ∈ (tStep (tStep (tStep t (.chError r1)).1 (.chError r2)).1 (.chError r3)).2) := by
  have he : (0 : ℚ) ≤ min cfg.maxDelayMs (cfg.baseDelayMs * 2 ^ attempt) :=
    le_min hmax (mul_nonneg hbase (by positivity))
  have hspread : (0 : ℚ) ≤ min cfg.maxDelayMs (cfg.baseDelayMs * 2 ^ attempt) * cfg.jitter :=
    mul_nonneg he hjit
  have hd : (nextBackoffDelay cfg attempt random).1
      = jsRound (min cfg.maxDelayMs (cfg.baseDelayMs * 2 ^ attempt)
          - min cfg.maxDelayMs (cfg.baseDelayMs * 2 ^ attempt) * cfg.jitter
          + random * (min cfg.maxDelayMs (cfg.baseDelayMs * 2 ^ attempt) * cfg.jitter) * 2) :=
    rfl
  have hlo : min cfg.maxDelayMs (cfg.baseDelayMs * 2 ^ attempt)
        - min cfg.maxDelayMs (cfg.baseDelayMs * 2 ^ attempt) * cfg.jitter
      ≤ min cfg.maxDelayMs (cfg.baseDelayMs * 2 ^ attempt)
        - min cfg.maxDelayMs (cfg.baseDelayMs * 2 ^ attempt) * cfg.jitter
        + random * (min cfg.maxDelayMs (cfg.baseDelayMs * 2 ^ attempt) * cfg.jitter) * 2 := by
    nlinarith
  have hhi : min cfg.maxDelayMs (cfg.baseDelayMs * 2 ^ attempt)
        - min cfg.maxDelayMs (cfg.baseDelayMs * 2 ^ attempt) * cfg.jitter
        + random * (min cfg.maxDelayMs (cfg.baseDelayMs * 2 ^ attempt) * cfg.jitter) * 2
      ≤ min cfg.maxDelayMs (cfg.baseDelayMs * 2 ^ attempt)
        + min cfg.maxDelayMs (cfg.baseDelayMs * 2 ^ attempt) * cfg.jitter := by
    nlinarith
  have hfl_le : ∀ q : ℚ, ((jsRound q : ℤ) : ℚ) ≤ q + 1 / 2 := fun q => Int.floor_le (q + 1 / 2)
  have hfl_gt : ∀ q : ℚ, q - 1 / 2 < ((jsRound q : ℤ) : ℚ) := by
    intro q
    have := Int.sub_one_lt_floor (q + 1 / 2)
    simp only [jsRound]
    linarith
  refine ⟨rfl, ?_, ?_, ?_, ?_, ?_, ?_, ?_⟩
  · rw [hd]
    have := hfl_gt (min cfg.maxDelayMs (cfg.baseDelayMs * 2 ^ attempt)
      - min cfg.maxDelayMs (cfg.baseDelayMs * 2 ^ attempt) * cfg.jitter
      + random * (min cfg.maxDelayMs (cfg.baseDelayMs * 2 ^ attempt) * cfg.jitter) * 2)
    linarith
  · rw [hd]
    have := hfl_le (min cfg.maxDelayMs (cfg.baseDelayMs * 2 ^ attempt)
      - min cfg.maxDelayMs (cfg.baseDelayMs * 2 ^ attempt) * cfg.jitter
      + random * (min cfg.maxDelayMs (cfg.baseDelayMs * 2 ^ attempt) * cfg.jitter) * 2)
    linarith
  · intro h0
    rw [hd, h0]
    ring_nf
  · intro t
    simp [tStep, esOnOpen, tSetStatus]
  · intro t h r
    rw [esOnError_state t h r]
  · intro t ev hne hno
    cases ev with
    | connect =>
      simp [tStep, tConnect, openEventSource, tSetStatus, clearReconnectTimer_state]
    | disconnect => rw [show (tStep t .disconnect).1 = (tDisconnect t).1 from rfl,
        tDisconnect_state]
    | chOpen => exact absurd rfl hno
    | chMessage parsed => cases parsed <;> simp [tStep, esOnMessage]
    | chError r => exact absurd rfl (hne r)
    | timerFire =>
      rcases hm : t.manualClose with _ | _
      · simp [tStep, reconnectTimerFire, hm, openEventSource, tSetStatus,
          closeEventSource_state]
      · simp [tStep, reconnectTimerFire, hm]
  · intro t hmc hra hcfg r1 r2 r3
    have h100 : jsRound (min (1000 : ℚ) (100 * 2 ^ (0 : Nat))) = 100 := by
      norm_num [jsRound, min_def, Int.floor_eq_iff]
    have h200 : jsRound (min (1000 : ℚ) (100 * 2 ^ (1 : Nat))) = 200 := by
      norm_num [jsRound, min_def, Int.floor_eq_iff]
    have h400 : jsRound (min (1000 : ℚ) (100 * 2 ^ (2 : Nat))) = 400 := by
      norm_num [jsRound, min_def, Int.floor_eq_iff]
    have hst1 := esOnError_state t hmc r1
    have hm1 : (tStep t (.chError r1)).1.manualClose = false := by rw [hst1]; exact hmc
    have hst2 := esOnError_state (tStep t (.chError r1)).1 hm1 r2
    have hm2 : (tStep (tStep t (.chError r1)).1 (.chError r2)).1.manualClose = false := by
      rw [hst2]; exact hm1
    refine ⟨?_, ?_, ?_⟩
    · have hmem := esOnError_schedules t hmc r1
      rwa [hcfg, hra, nextBackoffDelay_zero_jitter, h100] at hmem
    · have hmem := esOnError_schedules (tStep t (.chError r1)).1 hm1 r2
      rw [hst1] at hmem
      simp only [hcfg, hra, zero_add] at hmem
      rw [nextBackoffDelay_zero_jitter 100 1000 1 r2, h200] at hmem
      rw [hst1]
      simp only [hcfg, hra, zero_add]
      exact hmem
    · have hmem := esOnError_schedules (tStep (tStep t (.chError r1)).1 (.chError r2)).1 hm2 r3
      rw [hst2, hst1] at hmem
      simp only [hcfg, hra, zero_add, one_add_one_eq_two] at hmem
      rw [nextBackoffDelay_zero_jitter 100 1000 2 r3, h400] at hmem
      rw [hst2, hst1]
      simp only [hcfg, hra, zero_add, one_add_one_eq_two]
      exact hmem

/-- Concrete run of `spec_c5_backoff_amended`: attempt counter increments and
the first scheduled reconnect with the 100/1000/0 configuration is 100 ms. -/
theorem spec_c5_backoff_amended_witness :
    (nextBackoffDelay ⟨100, 1000, 0⟩ 0 (1 / 2)).2 = 1 ∧
    TEffect.startReconnectTimer 100
      ∈ (tStep ⟨.connected, false, 0, ⟨100, 1000, 0⟩, none, true⟩ (.chError 0)).2 := by
  have h := spec_c5_backoff_amended ⟨100, 1000, 0⟩ 0 (1 / 2)
    (by norm_num) (by norm_num) (by norm_num) (by norm_num) (by norm_num)
  exact ⟨h.1, (h.2.2.2.2.2.2.2 ⟨.connected, false, 0, ⟨100, 1000, 0⟩, none, true⟩
    rfl rfl rfl 0 0 0).1⟩

/-- Claim C6 counterexample: `generateId` draws only on the clock and a random
suffix and the code never checks the fresh id against the pending map, so a
state whose pending map already holds the id generated from the same
`(time, randomness)` pair collides with it, and the colliding `request`
overwrites the existing entry instead of adding a second one. -/
theorem spec_c6_unique_id_counterexample :
    ¬ (∀ (s : ClientState) (nowMs : Nat) (rand : String),
         containsEntry s.pending (generateId nowMs rand) = false) ∧
    (requestStep {} ⟨[(generateId 5 "abc", ⟨"m", 1⟩)], .connected, true⟩
        5 "abc" 2 "m2" none).1.pending.length = 1 := by
  constructor
  · intro h
    have h5 := h ⟨[(generateId 5 "abc", ⟨"m", 1⟩)], .connected, true⟩ 5 "abc"
    simp [containsEntry, lookupEntry] at h5
  · decide

/-- Claim C6 amended: two generated correlation ids coincide exactly when both
the millisecond timestamp and the random suffix coincide, so ids generated at
different milliseconds or with different random suffixes are distinct; and
whenever the fresh id is not already pending, registering the request appends
a new entry without overwriting any existing one.  (The code performs no
collision check, so equal `(timestamp, suffix)` pairs do collide, as the
counterexample shows.) -/
theorem spec_c6_unique_id_amended (n1 n2 : Nat) (r1 r2 : String) :
    (generateId n1 r1 = generateId n2 r2 ↔ n1 = n2 ∧ r1 = r2) ∧
    (∀ (opts : ClientOptions) (s : ClientState) (tid : Nat) (method : String)
       (params : Option Json),
       containsEntry s.pending (generateId n1 r1) = false →
       (requestStep opts s n1 r1 tid method params).1.pending
         = s.pending ++ [(generateId n1 r1, ⟨method, tid⟩)]) := by
  constructor
  · constructor
    · exact generateId_inj n1 n2 r1 r2
    · rintro ⟨rfl, rfl⟩
      rfl
  · intro opts s tid method params h
    simp [requestStep, setEntry_of_not_contains _ _ _ h]

/-- Concrete run of `spec_c6_unique_id_amended`: ids from distinct timestamps
differ, and a fresh id appends a new pending entry. -/
theorem spec_c6_unique_id_amended_witness :
    generateId 1 "ab" ≠ generateId 2 "ab" ∧
    (requestStep {} ⟨[], .connected, true⟩ 1 "ab" 3 "m" none).1.pending
      = [(generateId 1 "ab", ⟨"m", 3⟩)] := by
  constructor
  · intro h
    have h12 := (spec_c6_unique_id_amended 1 2 "ab" "ab").1.mp h
    exact absurd h12.1 (by decide)
  · have h := (spec_c6_unique_id_amended 1 1 "ab" "ab").2 {}
      ⟨[], .connected, true⟩ 3 "m" none rfl
    simpa using h

/-- Claim C9 counterexample: the client does originate status values of its
own — its `connect()` sets and emits `connecting` directly, before and
independently of any transport-reported status change. -/
theorem spec_c9_status_counterexample :
    ¬ (∀ (opts : ClientOptions) (s : ClientState) (ev : CEvent) (st : McpStatus),
         CEffect.emitStatus st ∈ (cStep opts s ev).2 →
         ∃ st0, ev = CEvent.transportStatus st0) := by
  intro h
  obtain ⟨st0, hst0⟩ := h {} ⟨[], .disconnected, true⟩ .apiConnect .connecting
    (by simp [cStep, clientConnect, setStatus])
  cases hst0

/-- Claim C9 amended: every status value the client emits comes either from a
mirrored transport-reported status change (the subscription stores and
re-emits exactly the reported value) or from the client's own `connect()` and
`disconnect()`, which set `connecting` and `disconnected` respectively; no
other client operation emits a status. -/
theorem spec_c9_status_amended (opts : ClientOptions) (s : ClientState) :
    (∀ st, s.subscribed = true →
       cStep opts s (.transportStatus st)
         = ({ s with status := st },
            [.emitStatus st, .log .info ("status " ++ statusText st)])) ∧
    (∀ (ev : CEvent) (st : McpStatus), CEffect.emitStatus st ∈ (cStep opts s ev).2 →
       (ev = CEvent.transportStatus st ∧ s.subscribed = true) ∨
       (ev = CEvent.apiConnect ∧ st = .connecting) ∨
       (ev = CEvent.apiDisconnect ∧ st = .disconnected)) := by
  constructor
  · intro st hsub
    simp [cStep, hsub, setStatus]
  · intro ev st hmem
    cases ev with
    | apiConnect =>
      right; left
      refine ⟨rfl, ?_⟩
      simpa [cStep, clientConnect, setStatus] using hmem
    | apiDisconnect =>
      right; right
      refine ⟨rfl, ?_⟩
      rw [show (cStep opts s .apiDisconnect).2
          = [CEffect.transportDisconnect, CEffect.emitStatus .disconnected,
             CEffect.log .info "status disconnected"]
            ++ (rejectAllPending { s with status := McpStatus.disconnected }
                  "Disconnected").2 from rfl] at hmem
      rcases List.mem_append.mp hmem with h | h
      · simpa using h
      · rcases (mem_rejectAllPending_effects _ _ _).mp h with ⟨p, _, h2 | h2⟩ <;> simp at h2
    | apiDestroy =>
      exfalso
      rcases (mem_rejectAllPending_effects _ _ _).mp hmem with ⟨p, _, h2 | h2⟩ <;> simp at h2
    | apiRequest nowMs rand tid method params =>
      exfalso
      simp [cStep, requestStep] at hmem
    | transportMessage m =>
      exfalso
      cases hsub : s.subscribed with
      | false => simp [cStep, hsub] at hmem
      | true =>
        rw [show (cStep opts s (.transportMessage m)).2 = (handleMessage s m).2
          from by simp [cStep, hsub]] at hmem
        exact handleMessage_no_emitStatus s m st hmem
    | transportStatus st0 =>
      cases hsub : s.subscribed with
      | false => exfalso; simp [cStep, hsub] at hmem
      | true =>
        left
        have : st = st0 := by simpa [cStep, hsub, setStatus] using hmem
        subst this
        exact ⟨rfl, rfl⟩
    | transportError emsg =>
      exfalso
      cases hsub : s.subscribed with
      | false => simp [cStep, hsub] at hmem
      | true => simp [cStep, hsub] at hmem
    | timerExpire id method =>
      exfalso
      cases hc : containsEntry s.pending id with
      | false => simp [cStep, timeoutFire, hc] at hmem
      | true => simp [cStep, timeoutFire, hc] at hmem

/-- Concrete run of `spec_c9_status_amended`: a transport-reported status is
mirrored verbatim to subscribers. -/
theorem spec_c9_status_amended_witness :
    cStep {} ⟨[], .disconnected, true⟩ (.transportStatus .connected)
      = (⟨[], .connected, true⟩,
         [.emitStatus .connected, .log .info "status connected"]) := by
  have h := (spec_c9_status_amended {} ⟨[], .disconnected, true⟩).1 .connected rfl
  rw [h]
  rfl

end Mcp
